import Mathlib

/-!
Verification of the `ModelPerformance` explanation object of the DALEX
python package (`dalex/dataset_level/_model_performance/object.py`).

The embedding is shallow: numeric vectors (`explainer.y`, predictions,
residuals, the cutoff) are modelled as `List ℚ` / `ℚ` values, the pandas
one-row metrics `DataFrame` as an association list of column name and
metric value, the residuals `DataFrame` as a list of typed rows, and a
plotly figure as the list of its scatter traces (only the attributes the
code sets per trace: `x`, `y`, `line_shape`, `name`).

Metric values may be irrational (`rmse` takes a square root) or IEEE NaN
(zero denominators), so they are modelled by the small closed type
`MetricValue`: an exact rational, a symbolic square root of a rational,
or NaN.  No claim reads a metric value, only the column names.

Python exceptions are modelled with `Except String` / an explicit
`error : Option String` field: `fit` mutates `self` in place and may
raise, so its embedding returns the post-call attribute state together
with the raised message, capturing exactly which attributes were written
before the exception.
-/

/-- One metric cell of the one-row metrics `DataFrame`.  Python stores
floats; we keep exact rationals, a symbolic square root (for `rmse`),
and NaN (produced by zero denominators, per the spec NaN is surfaced,
never an exception). -/
inductive MetricValue where
  | val (x : ℚ)
  | sqrtVal (x : ℚ)
  | nan
deriving DecidableEq, Repr

/-- Modelled from the spec: `mse` lives in `utils.py` which is not under
src.  MSE = mean((ŷᵢ − yᵢ)²); mean of an empty vector is NaN. -/
def mse (y_pred y_true : List ℚ) : MetricValue :=
  if y_true.length = 0 then .nan
  else .val ((((y_pred.zip y_true).map (fun p => (p.1 - p.2) ^ 2)).sum) / (y_true.length : ℚ))

/-- Modelled from the spec: `rmse` lives in `utils.py` which is not under
src.  RMSE = √MSE, kept symbolic since the square root of a rational is
irrational in general. -/
def rmse (y_pred y_true : List ℚ) : MetricValue :=
  match mse y_pred y_true with
  | .val x => .sqrtVal x
  | .sqrtVal x => .sqrtVal x
  | .nan => .nan

/-- Modelled from the spec: `r2` lives in `utils.py` which is not under
src.  R² = 1 − Σ(yᵢ − ŷᵢ)² / Σ(yᵢ − ȳ)², NaN when `y` is constant
(zero denominator). -/
def r2 (y_pred y_true : List ℚ) : MetricValue :=
  if y_true.length = 0 then .nan
  else
    let ybar : ℚ := y_true.sum / (y_true.length : ℚ)
    let den : ℚ := (y_true.map (fun yi => (yi - ybar) ^ 2)).sum
    if den = 0 then .nan
    else .val (1 - (((y_true.zip y_pred).map (fun p => (p.1 - p.2) ^ 2)).sum) / den)

/-- Modelled from the spec: `mae` lives in `utils.py` which is not under
src.  MAE = mean(|ŷᵢ − yᵢ|). -/
def mae (y_pred y_true : List ℚ) : MetricValue :=
  if y_true.length = 0 then .nan
  else .val ((((y_pred.zip y_true).map (fun p => |p.1 - p.2|)).sum) / (y_true.length : ℚ))

/-- Insertion of an element into a sorted list of rationals; duplicate
preserving helper for the median. -/
def insertSorted (x : ℚ) : List ℚ → List ℚ
  | [] => [x]
  | y :: ys => if x ≤ y then x :: y :: ys else y :: insertSorted x ys

/-- Duplicate-preserving insertion sort on rationals. -/
def sortQ (l : List ℚ) : List ℚ := l.foldr insertSorted []

/-- Median of a sample: middle element of the sorted sample for odd
length, mean of the two middle elements for even length, NaN when
empty (numpy semantics). -/
def medianQ (l : List ℚ) : MetricValue :=
  if l.length = 0 then .nan
  else
    let s := sortQ l
    if l.length % 2 = 1 then .val (s.getD (l.length / 2) 0)
    else .val ((s.getD (l.length / 2 - 1) 0 + s.getD (l.length / 2) 0) / 2)

/-- Modelled from the spec: `mad` lives in `utils.py` which is not under
src.  MAD = median(|ŷᵢ − yᵢ|). -/
def mad (y_pred y_true : List ℚ) : MetricValue :=
  medianQ ((y_pred.zip y_true).map (fun p => |p.1 - p.2|))

/-- Modelled from the spec: `recall` lives in `utils.py` which is not
under src.  recall = tp / (tp + fn), NaN on a zero denominator. -/
def «recall» (tp fp tn fn : ℕ) : MetricValue :=
  if tp + fn = 0 then .nan else .val ((tp : ℚ) / ((tp : ℚ) + (fn : ℚ)))

/-- Modelled from the spec: `precision` lives in `utils.py` which is not
under src.  precision = tp / (tp + fp), NaN on a zero denominator. -/
def precision (tp fp tn fn : ℕ) : MetricValue :=
  if tp + fp = 0 then .nan else .val ((tp : ℚ) / ((tp : ℚ) + (fp : ℚ)))

/-- Modelled from the spec: `f1` lives in `utils.py` which is not under
src.  F1 = 2·precision·recall / (precision + recall), NaN whenever a
constituent is NaN or the denominator is zero. -/
def f1 (tp fp tn fn : ℕ) : MetricValue :=
  match precision tp fp tn fn, «recall» tp fp tn fn with
  | .val p, .val r => if p + r = 0 then .nan else .val (2 * p * r / (p + r))
  | _, _ => .nan

/-- Modelled from the spec: `accuracy` lives in `utils.py` which is not
under src.  accuracy = (tp + tn) / (tp + fp + tn + fn), NaN on a zero
denominator. -/
def accuracy (tp fp tn fn : ℕ) : MetricValue :=
  if tp + fp + tn + fn = 0 then .nan
  else .val (((tp : ℚ) + (tn : ℚ)) / ((tp : ℚ) + (fp : ℚ) + (tn : ℚ) + (fn : ℚ)))

/-- Modelled from the spec: `auc` lives in `utils.py` which is not under
src.  AUC = probability that a randomly chosen positive-label score
exceeds a randomly chosen negative-label score (the spec's rank-sum
formulation is a pure-efficiency reformulation of this pair count);
NaN when either class is empty. -/
def auc (y_pred y_true : List ℚ) : MetricValue :=
  let pos := ((y_true.zip y_pred).filter (fun p => decide (p.1 = 1))).map Prod.snd
  let neg := ((y_true.zip y_pred).filter (fun p => decide (p.1 = 0))).map Prod.snd
  if pos.length * neg.length = 0 then .nan
  else .val (((pos.map (fun s => ((neg.filter (fun t => decide (t < s))).length : ℚ))).sum)
              / ((pos.length : ℚ) * (neg.length : ℚ)))

/-- Confusion count over (label, score) pairs:
`((y_true == 1) * (y_pred >= cutoff)).sum()`. -/
def tpOf (pairs : List (ℚ × ℚ)) (cutoff : ℚ) : ℕ :=
  (pairs.filter (fun p => decide (p.1 = 1 ∧ cutoff ≤ p.2))).length

/-- Confusion count over (label, score) pairs:
`((y_true == 0) * (y_pred >= cutoff)).sum()`. -/
def fpOf (pairs : List (ℚ × ℚ)) (cutoff : ℚ) : ℕ :=
  (pairs.filter (fun p => decide (p.1 = 0 ∧ cutoff ≤ p.2))).length

/-- Confusion count over (label, score) pairs:
`((y_true == 0) * (y_pred < cutoff)).sum()`. -/
def tnOf (pairs : List (ℚ × ℚ)) (cutoff : ℚ) : ℕ :=
  (pairs.filter (fun p => decide (p.1 = 0 ∧ p.2 < cutoff))).length

/-- Confusion count over (label, score) pairs:
`((y_true == 1) * (y_pred < cutoff)).sum()`. -/
def fnOf (pairs : List (ℚ × ℚ)) (cutoff : ℚ) : ℕ :=
  (pairs.filter (fun p => decide (p.1 = 1 ∧ p.2 < cutoff))).length

/-- `tp = ((y_true == 1) * (y_pred >= self.cutoff)).sum()` (object.py,
classification branch of `fit`): elementwise over aligned vectors. -/
def tpCount (y_true y_pred : List ℚ) (cutoff : ℚ) : ℕ := tpOf (y_true.zip y_pred) cutoff

/-- `fp = ((y_true == 0) * (y_pred >= self.cutoff)).sum()`. -/
def fpCount (y_true y_pred : List ℚ) (cutoff : ℚ) : ℕ := fpOf (y_true.zip y_pred) cutoff

/-- `tn = ((y_true == 0) * (y_pred < self.cutoff)).sum()`. -/
def tnCount (y_true y_pred : List ℚ) (cutoff : ℚ) : ℕ := tnOf (y_true.zip y_pred) cutoff

/-- `fn = ((y_true == 1) * (y_pred < self.cutoff)).sum()`. -/
def fnCount (y_true y_pred : List ℚ) (cutoff : ℚ) : ℕ := fnOf (y_true.zip y_pred) cutoff

/-- One row of the residuals `DataFrame` built at the end of `fit`:
columns `y_hat`, `y`, `residuals`, `label`. -/
structure ResidualRow where
  y_hat : ℚ
  y : ℚ
  residuals : ℚ
  label : String
deriving DecidableEq, Repr

/-- The `Explainer` collaborator, at the interface `fit` uses: an
optional precomputed prediction vector (else `predict(explainer.data)`
is called, modelled by its result `predictResult` since `data` is fixed
inside the collaborator), an optional precomputed residual vector (else
`residual(data, y)`, modelled by `residualResult`), ground truth `y`,
and a display `label`. -/
structure Explainer where
  y_hat : Option (List ℚ)
  residuals : Option (List ℚ)
  y : List ℚ
  label : String
  predictResult : List ℚ
  residualResult : List ℚ

/-- The `ModelPerformance` object's attributes: `model_type` and
`cutoff` set by `__init__`, `result` (one-row metrics table, as an
association list of column name and value) and `residuals` (residuals
table), both `None` until `fit` writes them. -/
structure ModelPerformance where
  model_type : String
  cutoff : ℚ
  result : Option (List (String × MetricValue))
  residuals : Option (List ResidualRow)
deriving DecidableEq

/-- `__init__(model_type, cutoff=0.5)`: stores both and sets `result`
and `residuals` to `None`. -/
def ModelPerformance.init (model_type : String) (cutoff : ℚ) : ModelPerformance :=
  { model_type := model_type, cutoff := cutoff, result := none, residuals := none }

/-- Outcome of a call to `fit`: the possibly-raised exception message
and the attribute state of `self` after the call (Python mutates in
place, so on an exception the state records exactly the attributes
written before the raise). -/
structure FitOutcome where
  error : Option String
  state : ModelPerformance
deriving DecidableEq

/-- `ModelPerformance.fit(explainer)`, line by line.  Predictions come
from `explainer.y_hat` if precomputed, else `explainer.predict(data)`;
residuals likewise.  The regression branch writes the five-column
metrics table, the classification branch derives the confusion counts
and writes its five-column table, and any other `model_type` raises
`ValueError` before any attribute is written.  Both successful branches
then write the residuals table with the explainer's scalar `label`
broadcast to every row. -/
def ModelPerformance.fit (self : ModelPerformance) (explainer : Explainer) : FitOutcome :=
  let y_pred := match explainer.y_hat with
    | some v => v
    | none => explainer.predictResult
  let residuals0 := match explainer.residuals with
    | some v => v
    | none => explainer.residualResult
  let y_true := explainer.y
  let residualsTable : List ResidualRow :=
    ((y_pred.zip y_true).zip residuals0).map
      (fun p => { y_hat := p.1.1, y := p.1.2, residuals := p.2, label := explainer.label })
  if self.model_type = "regression" then
    { error := none,
      state := { self with
        result := some
          [("mse", mse y_pred y_true),
           ("rmse", rmse y_pred y_true),
           ("r2", r2 y_pred y_true),
           ("mae", mae y_pred y_true),
           ("mad", mad y_pred y_true)],
        residuals := some residualsTable } }
  else if self.model_type = "classification" then
    let tp := tpCount y_true y_pred self.cutoff
    let fp := fpCount y_true y_pred self.cutoff
    let tn := tnCount y_true y_pred self.cutoff
    let fn := fnCount y_true y_pred self.cutoff
    { error := none,
      state := { self with
        result := some
          [("recall", «recall» tp fp tn fn),
           ("precision", precision tp fp tn fn),
           ("f1", f1 tp fp tn fn),
           ("accuracy", accuracy tp fp tn fn),
           ("auc", auc y_pred y_true)],
        residuals := some residualsTable } }
  else
    { error := some "ValueError: 'model_type' must be 'regression' or 'classification'",
      state := self }

/-- A plotly scatter trace, restricted to the attributes `plot` sets per
series: `x`, `y`, `line_shape` and `name`. -/
structure Trace where
  x : List ℚ
  y : List ℚ
  line_shape : String
  name : String
deriving DecidableEq, Repr

/-- A plotly figure, as the ordered list of its traces (the axis and
layout updates of `plot` carry no computed data). -/
structure Figure where
  traces : List Trace
deriving DecidableEq, Repr

/-- The `objects` parameter of `plot`: `None`, a single
`ModelPerformance` instance (detected by `isinstance`), or an iterable
whose elements may or may not be `ModelPerformance` instances.  A
non-`ModelPerformance` element is modelled by `other` with a plain
textual description of the Python value. -/
inductive PlotElem where
  | mp (m : ModelPerformance)
  | other (desc : String)

/-- The three shapes of the `objects` argument. -/
inductive PlotObjects where
  | none
  | single (m : ModelPerformance)
  | many (l : List PlotElem)

/-- Modelled from the spec: `ecdf` lives in `plot.py` which is not under
src.  F(x) = (count of sample values ≤ x) / N, the empirical CDF of the
sample, queryable at an arbitrary point. -/
def ecdf (sample : List ℚ) (x : ℚ) : ℚ :=
  ((sample.filter (fun v => decide (v ≤ x))).length : ℚ) / (sample.length : ℚ)

/-- `np.unique`: the sorted list of distinct values of a vector. -/
def sortedUnique (l : List ℚ) : List ℚ :=
  l.toFinset.sort (· ≤ ·)

/-- The trace `plot` registers for one residuals table:
`x = np.unique(np.abs(residuals))`,
`y = 1 - ecdf(np.abs(residuals))(x)`, step shape `hv`, and `name` read
from the `label` cell of row 0 (`iloc[0]`; empty name for the empty
table, where the Python code raises before reading — see
`traceOfTable`). -/
def seriesTrace (tab : List ResidualRow) : Trace :=
  let absResiduals := tab.map (fun r => |r.residuals|)
  let uniqueAbs := sortedUnique absResiduals
  { x := uniqueAbs,
    y := uniqueAbs.map (fun q => 1 - ecdf absResiduals q),
    line_shape := "hv",
    name := ((tab.head?).map ResidualRow.label).getD "" }

/-- One iteration of the figure-building loop of `plot`: `iloc[0]` on an
empty residuals table raises `IndexError`, otherwise the series trace is
added. -/
def traceOfTable (tab : List ResidualRow) : Except String Trace :=
  match tab with
  | [] => .error "IndexError: single positional indexer is out-of-bounds"
  | _ :: _ => .ok (seriesTrace tab)

/-- The element loop of the `else` branch of `plot`: for each element in
order, `isinstance` is checked first (raising `TypeError` for a
non-`ModelPerformance` element), then `ob.residuals.copy()` is taken
(raising `AttributeError` when `residuals` is still `None`). -/
def collectTables : List PlotElem → Except String (List (List ResidualRow))
  | [] => .ok []
  | PlotElem.other _ :: _ =>
      .error "TypeError: Some explanations aren't of ModelPerformance class"
  | PlotElem.mp m :: rest =>
      match m.residuals with
      | Option.none => .error "AttributeError: NoneType object has no attribute copy"
      | some t => (collectTables rest).map (fun ts => t :: ts)

/-- The figure-building loop of `plot`: one trace per residuals table,
in order, aborting at the first raised exception (traces already added
to the local `fig` are discarded, since the exception propagates before
the figure is returned or shown). -/
def buildTraces : List (List ResidualRow) → Except String (List Trace)
  | [] => .ok []
  | tab :: rest =>
      match traceOfTable tab with
      | .error e => .error e
      | .ok t => (buildTraces rest).map (fun ts => t :: ts)

/-- `ModelPerformance.plot(objects)`: gather the residual tables —
`self` first, then the peers in the given order — and register one
step trace per table.  Any raised exception aborts the call before a
figure is produced; the `show`/`title` presentation parameters carry no
computed data and are omitted. -/
def ModelPerformance.plot (self : ModelPerformance) (objects : PlotObjects) :
    Except String Figure :=
  match self.residuals with
  | Option.none => .error "AttributeError: NoneType object has no attribute copy"
  | some selfTab =>
    let tablesE : Except String (List (List ResidualRow)) :=
      match objects with
      | .none => .ok [selfTab]
      | .single m =>
        match m.residuals with
        | Option.none => .error "AttributeError: NoneType object has no attribute copy"
        | some t => .ok [selfTab, t]
      | .many l => (collectTables l).map (fun ts => selfTab :: ts)
    match tablesE with
    | .error e => .error e
    | .ok tabs => (buildTraces tabs).map Figure.mk

/-! Concrete sample objects used by the witnesses. -/

/-- A fitted regression result with residuals `[0, 1, -1]`, label "A". -/
def mpA : ModelPerformance :=
  { model_type := "regression", cutoff := 1/2, result := none,
    residuals := some [⟨1, 1, 0, "A"⟩, ⟨2, 1, 1, "A"⟩, ⟨0, 1, -1, "A"⟩] }

/-- A fitted regression result with residuals `[2, 1]`, label "B". -/
def mpB : ModelPerformance :=
  { model_type := "regression", cutoff := 1/2, result := none,
    residuals := some [⟨1, 1, 2, "B"⟩, ⟨2, 1, 1, "B"⟩] }

/-- A small explainer: `y = [1, 2, 3, 4]`, precomputed predictions
`[1, 2, 3, 5]` and residuals `[0, 0, 0, -1]`. -/
def sampleExplainer : Explainer :=
  { y_hat := some [1, 2, 3, 5], residuals := some [0, 0, 0, -1],
    y := [1, 2, 3, 4], label := "lm", predictResult := [], residualResult := [] }

/-- C1: a `ModelPerformance` whose `model_type` is neither "regression"
nor "classification" raises `ValueError` from `fit`, and `result` and
`residuals` stay `None`: the raise happens before any attribute of
`self` is written. -/
theorem fit_invalid_model_type_raises (mt : String) (c : ℚ) (e : Explainer)
    (h1 : mt ≠ "regression") (h2 : mt ≠ "classification") :
    ((ModelPerformance.init mt c).fit e).error =
        some "ValueError: 'model_type' must be 'regression' or 'classification'" ∧
    ((ModelPerformance.init mt c).fit e).state.result = none ∧
    ((ModelPerformance.init mt c).fit e).state.residuals = none ∧
    ((ModelPerformance.init mt c).fit e).state = ModelPerformance.init mt c := by
  refine ⟨?_, ?_, ?_, ?_⟩ <;>
    simp [ModelPerformance.fit, ModelPerformance.init, h1, h2]

/-- Witness for C1 at `model_type = "foo"`. -/
theorem fit_invalid_model_type_raises_witness :
    ((ModelPerformance.init "foo" (1/2)).fit sampleExplainer).error =
        some "ValueError: 'model_type' must be 'regression' or 'classification'" ∧
    ((ModelPerformance.init "foo" (1/2)).fit sampleExplainer).state.result = none ∧
    ((ModelPerformance.init "foo" (1/2)).fit sampleExplainer).state.residuals = none :=
  let h := fit_invalid_model_type_raises "foo" (1/2) sampleExplainer
    (by decide) (by decide)
  ⟨h.1, h.2.1, h.2.2.1⟩

/-- C5: a successful `fit` writes a metrics table whose column list is
exactly `mse, rmse, r2, mae, mad` for regression and exactly
`recall, precision, f1, accuracy, auc` for classification. -/
theorem metrics_table_field_set (s : ModelPerformance) (e : Explainer)
    (h : s.model_type = "regression" ∨ s.model_type = "classification") :
    (s.fit e).error = none ∧
    Option.map (fun tbl => tbl.map Prod.fst) (s.fit e).state.result =
      some (if s.model_type = "regression"
            then ["mse", "rmse", "r2", "mae", "mad"]
            else ["recall", "precision", "f1", "accuracy", "auc"]) := by
  rcases h with h | h
  · constructor <;> simp [ModelPerformance.fit, h]
  · have h1 : s.model_type ≠ "regression" := by rw [h]; decide
    constructor <;> simp [ModelPerformance.fit, h, h1]

/-- Witness for C5 on a concrete regression fit. -/
theorem metrics_table_field_set_witness :
    ((ModelPerformance.init "regression" (1/2)).fit sampleExplainer).error = none ∧
    Option.map (fun tbl => tbl.map Prod.fst)
        ((ModelPerformance.init "regression" (1/2)).fit sampleExplainer).state.result =
      some ["mse", "rmse", "r2", "mae", "mad"] := by
  have h := metrics_table_field_set (ModelPerformance.init "regression" (1/2))
    sampleExplainer (Or.inl rfl)
  simpa using h

/-- C8: `fit` is idempotent — it reads only `model_type`, `cutoff` and
the explainer, and fully overwrites `result` and `residuals`, so a
second call on the post-fit state returns the identical outcome. -/
theorem fit_idempotent (s : ModelPerformance) (e : Explainer) :
    ((s.fit e).state).fit e = s.fit e := by
  by_cases h1 : s.model_type = "regression"
  · simp [ModelPerformance.fit, h1]
  · by_cases h2 : s.model_type = "classification"
    · simp [ModelPerformance.fit, h1, h2]
    · simp [ModelPerformance.fit, h1, h2]

/-- C9: passing a single peer object is exactly the one-element
collection call: both branches gather `[self.residuals, peer.residuals]`
and build the same traces, so the outcomes agree on every input,
exceptional ones included. -/
theorem plot_single_eq_singleton_list (self p : ModelPerformance) :
    self.plot (PlotObjects.single p) = self.plot (PlotObjects.many [PlotElem.mp p]) := by
  cases hs : self.residuals with
  | none => simp [ModelPerformance.plot, hs]
  | some selfTab =>
    cases hp : p.residuals with
    | none => simp [ModelPerformance.plot, collectTables, hs, hp, Except.map]
    | some t => simp [ModelPerformance.plot, collectTables, hs, hp, Except.map]

/-- Unfolding `tpOf` over a cons cell. -/
lemma tpOf_cons (p : ℚ × ℚ) (l : List (ℚ × ℚ)) (c : ℚ) :
    tpOf (p :: l) c = tpOf l c + (if p.1 = 1 ∧ c ≤ p.2 then 1 else 0) := by
  by_cases h : p.1 = 1 ∧ c ≤ p.2 <;> simp [tpOf, List.filter_cons, h]

/-- Unfolding `fpOf` over a cons cell. -/
lemma fpOf_cons (p : ℚ × ℚ) (l : List (ℚ × ℚ)) (c : ℚ) :
    fpOf (p :: l) c = fpOf l c + (if p.1 = 0 ∧ c ≤ p.2 then 1 else 0) := by
  by_cases h : p.1 = 0 ∧ c ≤ p.2 <;> simp [fpOf, List.filter_cons, h]

/-- Unfolding `tnOf` over a cons cell. -/
lemma tnOf_cons (p : ℚ × ℚ) (l : List (ℚ × ℚ)) (c : ℚ) :
    tnOf (p :: l) c = tnOf l c + (if p.1 = 0 ∧ p.2 < c then 1 else 0) := by
  by_cases h : p.1 = 0 ∧ p.2 < c <;> simp [tnOf, List.filter_cons, h]

/-- Unfolding `fnOf` over a cons cell. -/
lemma fnOf_cons (p : ℚ × ℚ) (l : List (ℚ × ℚ)) (c : ℚ) :
    fnOf (p :: l) c = fnOf l c + (if p.1 = 1 ∧ p.2 < c then 1 else 0) := by
  by_cases h : p.1 = 1 ∧ p.2 < c <;> simp [fnOf, List.filter_cons, h]

/-- Over binary labels, the two `>=`-counts cover exactly the
observations whose score reaches the cutoff. -/
lemma tpOf_add_fpOf (l : List (ℚ × ℚ)) (c : ℚ)
    (hbin : ∀ p ∈ l, p.1 = 0 ∨ p.1 = 1) :
    tpOf l c + fpOf l c = (l.filter (fun p => decide (c ≤ p.2))).length := by
  induction l with
  | nil => rfl
  | cons hd tl ih =>
    have hb := hbin hd (List.mem_cons_self hd tl)
    have ih := ih (fun p hp => hbin p (List.mem_cons_of_mem hd hp))
    rw [tpOf_cons, fpOf_cons, List.filter_cons]
    rcases hb with h | h <;> by_cases hc : c ≤ hd.2 <;>
      simp [h, hc, zero_ne_one, one_ne_zero] <;> omega

/-- Each observation with a binary label falls in exactly one of the
four confusion cells, whichever side of the cutoff its score is on. -/
lemma confusion_partition (l : List (ℚ × ℚ)) (c : ℚ)
    (hbin : ∀ p ∈ l, p.1 = 0 ∨ p.1 = 1) :
    tpOf l c + fpOf l c + tnOf l c + fnOf l c = l.length := by
  induction l with
  | nil => rfl
  | cons hd tl ih =>
    have hb := hbin hd (List.mem_cons_self hd tl)
    have ih := ih (fun p hp => hbin p (List.mem_cons_of_mem hd hp))
    rw [tpOf_cons, fpOf_cons, tnOf_cons, fnOf_cons, List.length_cons]
    rcases hb with h | h <;> by_cases hc : c ≤ hd.2
    all_goals first
      | (have hc2 := not_lt.mpr hc
         simp [h, hc, hc2, zero_ne_one, one_ne_zero] <;> omega)
      | (have hc2 := not_le.mp hc
         simp [h, hc, hc2, zero_ne_one, one_ne_zero] <;> omega)

/-- C2: in the classification branch of `fit`, an observation is
predicted positive iff its score reaches the cutoff, with the boundary
inclusive: appending an observation whose score equals the cutoff
raises `tp` (label 1) or `fp` (label 0) by one and never changes `tn`
or `fn`, and over binary labels `tp + fp` counts exactly the
observations with score `>=` cutoff. -/
theorem cutoff_boundary_inclusive (l : List (ℚ × ℚ)) (c : ℚ)
    (hbin : ∀ p ∈ l, p.1 = 0 ∨ p.1 = 1) :
    tpOf (l ++ [(1, c)]) c = tpOf l c + 1 ∧
    fnOf (l ++ [(1, c)]) c = fnOf l c ∧
    fpOf (l ++ [(0, c)]) c = fpOf l c + 1 ∧
    tnOf (l ++ [(0, c)]) c = tnOf l c ∧
    tpOf l c + fpOf l c = (l.filter (fun p => decide (c ≤ p.2))).length := by
  refine ⟨?_, ?_, ?_, ?_, tpOf_add_fpOf l c hbin⟩ <;>
    simp [tpOf, fnOf, fpOf, tnOf, List.filter_append, zero_ne_one, one_ne_zero]

/-- Witness for C2 at cutoff 1/2 over two observations. -/
theorem cutoff_boundary_inclusive_witness :
    tpOf (([(1, 1/4), (0, 3/4)] : List (ℚ × ℚ)) ++ [(1, 1/2)]) (1/2) =
      tpOf ([(1, 1/4), (0, 3/4)] : List (ℚ × ℚ)) (1/2) + 1 ∧
    fnOf (([(1, 1/4), (0, 3/4)] : List (ℚ × ℚ)) ++ [(1, 1/2)]) (1/2) =
      fnOf ([(1, 1/4), (0, 3/4)] : List (ℚ × ℚ)) (1/2) ∧
    fpOf (([(1, 1/4), (0, 3/4)] : List (ℚ × ℚ)) ++ [(0, 1/2)]) (1/2) =
      fpOf ([(1, 1/4), (0, 3/4)] : List (ℚ × ℚ)) (1/2) + 1 ∧
    tnOf (([(1, 1/4), (0, 3/4)] : List (ℚ × ℚ)) ++ [(0, 1/2)]) (1/2) =
      tnOf ([(1, 1/4), (0, 3/4)] : List (ℚ × ℚ)) (1/2) ∧
    tpOf ([(1, 1/4), (0, 3/4)] : List (ℚ × ℚ)) (1/2) +
        fpOf ([(1, 1/4), (0, 3/4)] : List (ℚ × ℚ)) (1/2) =
      ((([(1, 1/4), (0, 3/4)] : List (ℚ × ℚ))).filter
        (fun p => decide ((1 : ℚ)/2 ≤ p.2))).length :=
  cutoff_boundary_inclusive [(1, 1/4), (0, 3/4)] (1/2) (by decide)

/-- C3: the four confusion counts of the classification branch are
natural numbers and partition the dataset — their sum is exactly the
number of observations whenever labels are binary and the prediction
vector is aligned with the label vector. -/
theorem confusion_counts_sum (y_true y_pred : List ℚ) (c : ℚ)
    (hbin : ∀ yi ∈ y_true, yi = 0 ∨ yi = 1)
    (hlen : y_pred.length = y_true.length) :
    tpCount y_true y_pred c + fpCount y_true y_pred c +
      tnCount y_true y_pred c + fnCount y_true y_pred c = y_true.length := by
  have hb : ∀ p ∈ y_true.zip y_pred, p.1 = 0 ∨ p.1 = 1 := by
    rintro ⟨a, b⟩ hp
    exact hbin a (List.of_mem_zip hp).1
  have h := confusion_partition (y_true.zip y_pred) c hb
  simpa [tpCount, fpCount, tnCount, fnCount, List.length_zip, hlen,
    min_self] using h

/-- Witness for C3 on the spec's classification example
(`y = [1,0,1,0]`, `ŷ = [0.6, 0.4, 0.3, 0.2]`, cutoff 1/2). -/
theorem confusion_counts_sum_witness :
    tpCount ([1, 0, 1, 0] : List ℚ) [3/5, 2/5, 3/10, 1/5] (1/2) +
      fpCount ([1, 0, 1, 0] : List ℚ) [3/5, 2/5, 3/10, 1/5] (1/2) +
      tnCount ([1, 0, 1, 0] : List ℚ) [3/5, 2/5, 3/10, 1/5] (1/2) +
      fnCount ([1, 0, 1, 0] : List ℚ) [3/5, 2/5, 3/10, 1/5] (1/2) = 4 := by
  have h := confusion_counts_sum ([1, 0, 1, 0] : List ℚ)
    [3/5, 2/5, 3/10, 1/5] (1/2) (by decide) (by decide)
  simpa using h

/-- The element loop raises its `TypeError` at the first
non-`ModelPerformance` element, as long as every earlier element passes
the `isinstance` check and owns a residuals table. -/
lemma collectTables_first_bad (d : String) (rest : List PlotElem) :
    ∀ (pre : List ModelPerformance), (∀ p ∈ pre, (p.residuals).isSome = true) →
    collectTables (pre.map PlotElem.mp ++ PlotElem.other d :: rest) =
      .error "TypeError: Some explanations aren't of ModelPerformance class"
  | [], _ => rfl
  | q :: qs, hpre => by
    obtain ⟨t, ht⟩ := Option.isSome_iff_exists.mp (hpre q (List.mem_cons_self q qs))
    have ih := collectTables_first_bad d rest qs
      (fun p hp => hpre p (List.mem_cons_of_mem q hp))
    simp [collectTables, ht, ih, Except.map]

/-- C4 (amended): when a collection element is not a `ModelPerformance`
object, `plot` raises a `TypeError` — with a fixed generic message, not
one identifying the offending element — and aborts with no figure
produced. -/
theorem plot_type_error_aborts (self : ModelPerformance)
    (selfTab : List ResidualRow) (hself : self.residuals = some selfTab)
    (pre : List ModelPerformance) (hpre : ∀ p ∈ pre, (p.residuals).isSome = true)
    (d : String) (rest : List PlotElem) :
    self.plot (PlotObjects.many (pre.map PlotElem.mp ++ PlotElem.other d :: rest)) =
      .error "TypeError: Some explanations aren't of ModelPerformance class" := by
  simp [ModelPerformance.plot, hself, collectTables_first_bad d rest pre hpre,
    Except.map]

/-- Witness for C4's amended claim: a two-element collection whose
second element is not a `ModelPerformance`. -/
theorem plot_type_error_aborts_witness :
    mpA.plot (PlotObjects.many
        ([mpB].map PlotElem.mp ++ PlotElem.other "a string" :: [])) =
      .error "TypeError: Some explanations aren't of ModelPerformance class" :=
  plot_type_error_aborts mpA _ rfl [mpB] (by decide) "a string" []

/-- C4 counterexample: the raised `TypeError` does not identify the
offending element — two calls whose offending elements differ (in value
and in position) raise the very same error, which also names no
element. -/
theorem plot_type_error_not_identifying :
    mpA.plot (PlotObjects.many [PlotElem.other "an int"]) =
      mpA.plot (PlotObjects.many [PlotElem.mp mpB, PlotElem.other "a string"]) ∧
    mpA.plot (PlotObjects.many [PlotElem.other "an int"]) =
      .error "TypeError: Some explanations aren't of ModelPerformance class" := by
  constructor <;> rfl

/-- C10: a series' trace name is read with `iloc[0]` from the `label`
cell of row 0 only; labels in later rows are never read and need not be
constant — two tables with the same residuals column and the same row-0
label yield the same trace and the same figure, whatever the other
labels (and the other columns) hold. -/
theorem trace_name_from_first_row (r0 r0' : ResidualRow)
    (rest rest' : List ResidualRow)
    (hlab : r0'.label = r0.label) (hres0 : r0'.residuals = r0.residuals)
    (hres : rest'.map ResidualRow.residuals = rest.map ResidualRow.residuals) :
    (seriesTrace (r0 :: rest)).name = r0.label ∧
    traceOfTable (r0' :: rest') = traceOfTable (r0 :: rest) ∧
    (∀ (mt : String) (c : ℚ) (res : Option (List (String × MetricValue))),
      ModelPerformance.plot ⟨mt, c, res, some (r0' :: rest')⟩ PlotObjects.none =
        ModelPerformance.plot ⟨mt, c, res, some (r0 :: rest)⟩ PlotObjects.none) := by
  have habs : (r0' :: rest').map (fun r => |r.residuals|) =
      (r0 :: rest).map (fun r => |r.residuals|) := by
    simp only [List.map_cons, hres0]
    have h2 := congrArg (List.map (fun q : ℚ => |q|)) hres
    simp only [List.map_map] at h2
    simpa [Function.comp] using h2
  have hseries : seriesTrace (r0' :: rest') = seriesTrace (r0 :: rest) := by
    simp [seriesTrace, habs, hlab]
  refine ⟨by simp [seriesTrace], by simp [traceOfTable, hseries], ?_⟩
  intro mt c res
  simp [ModelPerformance.plot, buildTraces, traceOfTable, hseries]

/-- Witness for C10: a table whose later row carries a different label
still yields one trace named after row 0, and changing the off-row-0
labels (and the other columns) leaves the produced figure unchanged. -/
theorem trace_name_from_first_row_witness :
    (seriesTrace [⟨1, 1, 0, "A"⟩, ⟨2, 1, 1, "Z"⟩]).name = "A" ∧
    traceOfTable [⟨5, 5, 0, "A"⟩, ⟨9, 9, 1, "Q"⟩] =
      traceOfTable [⟨1, 1, 0, "A"⟩, ⟨2, 1, 1, "Z"⟩] ∧
    ModelPerformance.plot
        ⟨"regression", 1/2, none, some [⟨5, 5, 0, "A"⟩, ⟨9, 9, 1, "Q"⟩]⟩
        PlotObjects.none =
      ModelPerformance.plot
        ⟨"regression", 1/2, none, some [⟨1, 1, 0, "A"⟩, ⟨2, 1, 1, "Z"⟩]⟩
        PlotObjects.none :=
  let h := trace_name_from_first_row ⟨1, 1, 0, "A"⟩ ⟨5, 5, 0, "A"⟩
    [⟨2, 1, 1, "Z"⟩] [⟨9, 9, 1, "Q"⟩] rfl rfl rfl
  ⟨h.1, h.2.1, h.2.2 "regression" (1/2) none⟩

/-- The empirical CDF is always nonnegative. -/
lemma ecdf_nonneg (sample : List ℚ) (x : ℚ) : 0 ≤ ecdf sample x :=
  div_nonneg (Nat.cast_nonneg _) (Nat.cast_nonneg _)

/-- On a nonempty sample the empirical CDF never exceeds one. -/
lemma ecdf_le_one (sample : List ℚ) (x : ℚ) (hs : sample ≠ []) :
    ecdf sample x ≤ 1 := by
  unfold ecdf
  have hN : 0 < (sample.length : ℚ) := by
    exact_mod_cast List.length_pos.mpr hs
  rw [div_le_one hN]
  exact_mod_cast List.length_filter_le _ _

/-- The empirical CDF is monotone in its query point. -/
lemma ecdf_mono (sample : List ℚ) {x x' : ℚ} (hxx : x ≤ x') :
    ecdf sample x ≤ ecdf sample x' := by
  unfold ecdf
  rcases eq_or_ne sample [] with h | h
  · simp [h]
  · have hN : 0 < (sample.length : ℚ) := by
      exact_mod_cast List.length_pos.mpr h
    have hmono : (sample.filter (fun v => decide (v ≤ x))).length ≤
        (sample.filter (fun v => decide (v ≤ x'))).length := by
      apply List.Sublist.length_le
      apply List.monotone_filter_right
      intro a ha
      simp only [decide_eq_true_eq] at ha ⊢
      exact le_trans ha hxx
    apply div_le_div_of_nonneg_right ?_ hN.le
    exact_mod_cast hmono

/-- The `x` column `plot` registers for a table. -/
lemma seriesTrace_x (tab : List ResidualRow) :
    (seriesTrace tab).x = sortedUnique (tab.map (fun r => |r.residuals|)) := rfl

/-- The `y` column `plot` registers for a table. -/
lemma seriesTrace_y (tab : List ResidualRow) :
    (seriesTrace tab).y =
      (sortedUnique (tab.map (fun r => |r.residuals|))).map
        (fun q => 1 - ecdf (tab.map (fun r => |r.residuals|)) q) := rfl

/-- The reverse-ECDF values at the sorted unique query points of a
nonempty sample: non-increasing and inside `[0, 1]`. -/
lemma reverse_ecdf_props (sample : List ℚ) (hs : sample ≠ []) :
    ((sortedUnique sample).map (fun q => 1 - ecdf sample q)).Chain'
        (fun a b => b ≤ a) ∧
    ∀ v ∈ (sortedUnique sample).map (fun q => 1 - ecdf sample q),
      0 ≤ v ∧ v ≤ 1 := by
  constructor
  · rw [List.chain'_map]
    have hsorted : (sortedUnique sample).Chain' (· ≤ ·) := by
      unfold sortedUnique
      exact List.chain'_iff_pairwise.mpr (Finset.sort_sorted (· ≤ ·) sample.toFinset)
    refine hsorted.imp ?_
    intro a b hab
    have := ecdf_mono sample hab
    linarith
  · intro v hv
    obtain ⟨q, hq, rfl⟩ := List.mem_map.mp hv
    have h1 := ecdf_le_one sample q hs
    have h0 := ecdf_nonneg sample q
    constructor <;> linarith

/-- C7: along the sorted unique query points of a plotted series, the
registered reverse-ECDF values `1 - F(x)` form a non-increasing
sequence and every value lies in `[0, 1]`. -/
theorem reverse_ecdf_monotone_bounded (tab : List ResidualRow) (tr : Trace)
    (h : traceOfTable tab = .ok tr) :
    tr.y.Chain' (fun a b => b ≤ a) ∧ ∀ v ∈ tr.y, 0 ≤ v ∧ v ≤ 1 := by
  cases tab with
  | nil => simp [traceOfTable] at h
  | cons r0 rest =>
    simp only [traceOfTable, Except.ok.injEq] at h
    subst h
    rw [seriesTrace_y]
    exact reverse_ecdf_props _ (by simp)

/-- Witness for C7 on a two-row series with residuals `[0, 1]`. -/
theorem reverse_ecdf_monotone_bounded_witness :
    (seriesTrace [⟨1, 1, 0, "A"⟩, ⟨2, 1, 1, "A"⟩]).y.Chain' (fun a b => b ≤ a) ∧
    ∀ v ∈ (seriesTrace [⟨1, 1, 0, "A"⟩, ⟨2, 1, 1, "A"⟩]).y, 0 ≤ v ∧ v ≤ 1 :=
  reverse_ecdf_monotone_bounded [⟨1, 1, 0, "A"⟩, ⟨2, 1, 1, "A"⟩] _ rfl

/-- The element loop succeeds on an all-`ModelPerformance` list whose
elements own residuals tables, returning those tables in order. -/
lemma collectTables_ok :
    ∀ (peers : List ModelPerformance) (peerTabs : List (List ResidualRow)),
    peers.map ModelPerformance.residuals = peerTabs.map some →
    collectTables (peers.map PlotElem.mp) = .ok peerTabs
  | [], [], _ => rfl
  | [], t :: ts, h => by simp at h
  | q :: qs, [], h => by simp at h
  | q :: qs, t :: ts, h => by
    simp only [List.map_cons, List.cons.injEq] at h
    obtain ⟨h1, h2⟩ := h
    simp [collectTables, h1, collectTables_ok qs ts h2, Except.map]

/-- The figure loop succeeds when every table is nonempty, producing
the series traces in order. -/
lemma buildTraces_ok :
    ∀ (tabs : List (List ResidualRow)), (∀ tab ∈ tabs, tab ≠ []) →
    buildTraces tabs = .ok (tabs.map seriesTrace)
  | [], _ => rfl
  | tab :: ts, h => by
    have hne := h tab (List.mem_cons_self tab ts)
    have ih := buildTraces_ok ts (fun u hu => h u (List.mem_cons_of_mem tab hu))
    cases tab with
    | nil => exact absurd rfl hne
    | cons r0 rest => simp [buildTraces, traceOfTable, ih, Except.map]

/-- `np.unique` output is strictly increasing. -/
lemma sortedUnique_chain_lt (l : List ℚ) : (sortedUnique l).Chain' (· < ·) := by
  unfold sortedUnique
  exact List.chain'_iff_pairwise.mpr (Finset.sort_sorted_lt l.toFinset)

/-- `np.unique` keeps exactly the values of its input. -/
lemma mem_sortedUnique (l : List ℚ) (a : ℚ) : a ∈ sortedUnique l ↔ a ∈ l := by
  unfold sortedUnique
  rw [Finset.mem_sort, List.mem_toFinset]

/-- C6: plotting a primary result with `k` well-typed peers yields a
figure of exactly `k + 1` traces, primary first then the peers in the
given order; each trace is the step (`hv`) trace over the strictly
sorted deduplicated absolute residuals of its series, named with the
series' label. -/
theorem plot_overlay_traces (self : ModelPerformance)
    (selfTab : List ResidualRow) (peers : List ModelPerformance)
    (peerTabs : List (List ResidualRow))
    (hself : self.residuals = some selfTab)
    (hpt : peers.map ModelPerformance.residuals = peerTabs.map some)
    (hne : ∀ tab ∈ selfTab :: peerTabs, tab ≠ []) :
    self.plot (PlotObjects.many (peers.map PlotElem.mp)) =
      .ok ⟨(selfTab :: peerTabs).map seriesTrace⟩ ∧
    ((selfTab :: peerTabs).map seriesTrace).length = peers.length + 1 ∧
    (∀ tab ∈ selfTab :: peerTabs,
      (seriesTrace tab).line_shape = "hv" ∧
      (seriesTrace tab).x.Chain' (· < ·) ∧
      (∀ a, a ∈ (seriesTrace tab).x ↔ a ∈ tab.map (fun r => |r.residuals|)) ∧
      ∀ r ∈ tab, (∀ r' ∈ tab, r'.label = r.label) →
        (seriesTrace tab).name = r.label) := by
  refine ⟨?_, ?_, ?_⟩
  · simp [ModelPerformance.plot, hself, collectTables_ok peers peerTabs hpt,
      buildTraces_ok (selfTab :: peerTabs) hne, Except.map]
  · have hlen : peers.length = peerTabs.length := by
      have := congrArg List.length hpt
      simpa using this
    simp [hlen]
  · intro tab htab
    refine ⟨rfl, ?_, ?_, ?_⟩
    · rw [seriesTrace_x]
      exact sortedUnique_chain_lt _
    · intro a
      rw [seriesTrace_x]
      exact mem_sortedUnique _ a
    · intro r hr hconst
      cases tab with
      | nil => cases hr
      | cons r0 rest =>
        have hname : (seriesTrace (r0 :: rest)).name = r0.label := rfl
        rw [hname]
        exact hconst r0 (List.mem_cons_self r0 rest)

/-- Witness for C6: the primary "A" result overlaid with the "B" peer
produces the two series traces in order. -/
theorem plot_overlay_traces_witness :
    mpA.plot (PlotObjects.many ([mpB].map PlotElem.mp)) =
      .ok ⟨([[⟨1, 1, 0, "A"⟩, ⟨2, 1, 1, "A"⟩, ⟨0, 1, -1, "A"⟩],
             [⟨1, 1, 2, "B"⟩, ⟨2, 1, 1, "B"⟩]].map seriesTrace)⟩ :=
  (plot_overlay_traces mpA
    [⟨1, 1, 0, "A"⟩, ⟨2, 1, 1, "A"⟩, ⟨0, 1, -1, "A"⟩] [mpB]
    [[⟨1, 1, 2, "B"⟩, ⟨2, 1, 1, "B"⟩]] rfl rfl (by decide)).1
